import Mathlib

/-!
Verification development for the mzt-downloader repository (src/src/lib.rs and
src/src/bin/web.rs).  The Rust code is shallowly embedded: strings are lists of
characters (or lists of bytes where UTF-8 byte positions matter), fallible code
returns Except, a panic is represented by Option.none, and the network is an
explicit oracle argument supplying the responses the code would have fetched.
-/

deriving instance DecidableEq for Except

/-! ## util::filenamify (src/src/lib.rs, lines 626-649) -/

/-- Characters matched by the RESERVED regex of util::filenamify:
the class `[<>:"/\\|?*]` together with the code points U+0000-U+001F, U+007F and
U+0080-U+009F (exactly the Unicode control code points). -/
def reservedChar (c : Char) : Bool :=
  c == '<' || c == '>' || c == ':' || c == '"' || c == '/' || c == '\\' ||
    c == '|' || c == '?' || c == '*' ||
    c.toNat ≤ 31 || (127 ≤ c.toNat && c.toNat ≤ 159)

/-- Worker for replaceReserved.  The Boolean records whether the previous
character belonged to the current run of reserved characters, so that each
maximal run contributes exactly one copy of the replacement, as
Regex::replace_all does for the pattern `[...]+`. -/
def replaceReservedAux (r : List Char) : Bool → List Char → List Char
  | _, [] => []
  | inRun, c :: cs =>
    if reservedChar c then
      (if inRun then [] else r) ++ replaceReservedAux r true cs
    else
      c :: replaceReservedAux r false cs

/-- RESERVED.replace_all(input, replacement): every maximal run of reserved
characters is replaced by the replacement string. -/
def replaceReserved (r : List Char) (l : List Char) : List Char :=
  replaceReservedAux r false l

/-- The character class of the OUTER_PERIODS regex. -/
def isPeriod (c : Char) : Bool := c == '.'

/-- The trailing alternative of OUTER_PERIODS.replace_all: the maximal trailing
run of periods (the leftmost match of the pattern, which is the whole run) is
replaced by the replacement; if there is none the input is returned unchanged. -/
def replaceTrailingPeriods (r : List Char) (l : List Char) : List Char :=
  if l.reverse.takeWhile isPeriod = [] then l
  else (l.reverse.dropWhile isPeriod).reverse ++ r

/-- OUTER_PERIODS.replace_all with the regex anchored alternation: a leading
run of periods is replaced first (it can only match at position 0), then the
trailing run of the remainder is replaced. -/
def replaceOuterPeriods (r : List Char) (l : List Char) : List Char :=
  if l.head? = some '.' then r ++ replaceTrailingPeriods r (l.dropWhile isPeriod)
  else replaceTrailingPeriods r l

/-- WINDOWS_RESERVED regex: the anchored, case-sensitive pattern
`(con|prn|aux|nul|com\d|lpt\d)` of the source.  The regex crate resolves `\d`
to any Unicode decimal digit; it is modelled here as an ASCII digit.  All
theorems below instantiate the replacement at the empty string, where the
branch guarded by this test appends nothing, so the restriction never matters
to them. -/
def isWindowsReserved (l : List Char) : Bool :=
  match l with
  | ['c', 'o', 'n'] => true
  | ['p', 'r', 'n'] => true
  | ['a', 'u', 'x'] => true
  | ['n', 'u', 'l'] => true
  | ['c', 'o', 'm', d] => d.isDigit
  | ['l', 'p', 't', d] => d.isDigit
  | _ => false

/-- util::filenamify: replace reserved-character runs, replace outer period
runs, then append the replacement if the result equals a (lower-case, as
written in the source regex) Windows reserved device name.
Album::download_pictures calls it with the empty replacement string. -/
def filenamify (input : List Char) (replacement : List Char) : List Char :=
  let a := replaceReserved replacement input
  let b := replaceOuterPeriods replacement a
  if isWindowsReserved b then b ++ replacement else b

/-! ## Parsed HTML documents and Parser::parse_page_count
(src/src/lib.rs, lines 248-269 and 380-387) -/

/-- An element selected from a parsed document; texts is the sequence produced
by element.text(). -/
structure HtmlElement where
  texts : List String
deriving DecidableEq

/-- A parsed HTML document, abstracted by what scraper offers the code:
for a CSS selector string, the list of matching elements in document order.
The selectors the source passes are string constants that always parse, so
Selector::parse is modelled as succeeding. -/
structure HtmlDoc where
  select : String → List HtmlElement

/-- Rust str::parse::<u32>: an optional leading plus sign, then one or more
ASCII decimal digits, value at most u32::MAX; anything else is an error. -/
def parseU32 (s : List Char) : Option Nat :=
  let digits := match s with
    | '+' :: rest => rest
    | _ => s
  if digits.isEmpty then none
  else if digits.all Char.isDigit then
    let n := digits.foldl (fun acc c => acc * 10 + (c.toNat - 48)) 0
    if n ≤ 4294967295 then some n else none
  else none

/-- DiLi360Parser::parse_page_count: take the last element matching
`#pageFooter .pager-normal-foot`, its first text node, and parse it as u32;
each missing stage is a distinct error. -/
def DiLi360Parser.parse_page_count (doc : HtmlDoc) : Except String Nat :=
  match (doc.select "#pageFooter .pager-normal-foot").getLast? with
  | none => Except.error "parse page count error: not found page element"
  | some el =>
    match el.texts.head? with
    | none => Except.error "parse page count error: not found page text"
    | some t =>
      match parseU32 t.data with
      | none => Except.error "parse page count error: invalid digit"
      | some n => Except.ok n

/-- SFTKParser::parse_page_count: the number of elements matching `.pagelist`,
cast from usize to u32; it never returns an error. -/
def SFTKParser.parse_page_count (doc : HtmlDoc) : Except String Nat :=
  Except.ok ((doc.select ".pagelist").length % 4294967296)

/-- A document in which every selector matches nothing: the page-indicator
element is structurally absent. -/
def emptyDoc : HtmlDoc := { select := fun _ => [] }

/-! ## AlbumSearcher (src/src/lib.rs, lines 468-624)
The parser and the network behind it are abstracted by an oracle mapping a
page number to the outcome Parser::parse_albums would produce for it. -/

/-- The album value object of the source: display name and source URL. -/
structure Album where
  name : String
  url : String
deriving DecidableEq

/-- Outcome of Parser::parse_albums for one requested page: the album list and
the total page count reported by the site, or a fetch/parse error. -/
abbrev Oracle := Nat → Except String (List Album × Nat)

/-- The mutable state of AlbumSearcher.  The albums field is the LruCache of
capacity 64, kept as an association list ordered from most to least recently
used. -/
structure AlbumSearcher where
  page : Nat
  page_count : Nat
  size : Nat
  keyword : String
  albums : List (String × List Album)
deriving DecidableEq

/-- AlbumSearcher::new: page and page_count start at 0, a size below 1 is
replaced by DEFAULT_PAGE_SIZE = 10, the cache starts empty. -/
def AlbumSearcher.new (keyword : String) (size : Nat) : AlbumSearcher :=
  { page := 0
    page_count := 0
    size := if size < 1 then 10 else size
    keyword := keyword
    albums := [] }

/-- lru::LruCache::contains: membership test, no recency update. -/
def cacheContains (c : List (String × List Album)) (k : String) : Bool :=
  c.any (fun e => e.1 == k)

/-- lru::LruCache::get: on a hit the entry moves to the most-recently-used
position; the cache is returned alongside the value. -/
def cacheGet (c : List (String × List Album)) (k : String) :
    Option (List Album) × List (String × List Album) :=
  match c.find? (fun e => e.1 == k) with
  | none => (none, c)
  | some e => (some e.2, e :: c.eraseP (fun x => x.1 == k))

/-- lru::LruCache::push with capacity 64: insert (or update) the key at the
most-recently-used position, evicting the least-recently-used entry when a new
key would exceed the capacity. -/
def cachePush (c : List (String × List Album)) (k : String) (v : List Album) :
    List (String × List Album) :=
  ((k, v) :: c.eraseP (fun x => x.1 == k)).take 64

/-- The cache key format!("page-{}", page) of get_albums and download. -/
def pageKey (page : Nat) : String := "page-" ++ Nat.repr page

/-- The page-count update of get_albums (lib.rs lines 515-517):
if self.page_count == 0 || self.page_count < page_count, take the reported
value, otherwise keep the current one. -/
def updatePageCount (old reported : Nat) : Nat :=
  if old == 0 || old < reported then reported else old

/-- AlbumSearcher::get_albums: serve the current page from the cache when
present; otherwise ask the parser (the oracle), update page_count through
updatePageCount, push the result into the cache and return it.  On a parser
error the error propagates and the state keeps any mutations already made. -/
def AlbumSearcher.get_albums (o : Oracle) (s : AlbumSearcher) :
    Except String (Option (List Album)) × AlbumSearcher :=
  let key := pageKey s.page
  if cacheContains s.albums key then
    let g := cacheGet s.albums key
    (Except.ok g.1, { s with albums := g.2 })
  else
    match o s.page with
    | Except.error e => (Except.error e, s)
    | Except.ok (albums, page_count) =>
      let s1 := { s with
        page_count := updatePageCount s.page_count page_count
        albums := cachePush s.albums key albums }
      let g := cacheGet s1.albums key
      (Except.ok g.1, { s1 with albums := g.2 })

/-- AlbumSearcher::current: position to page 1 while the total is unknown,
otherwise keep the current page; then get_albums. -/
def AlbumSearcher.current (o : Oracle) (s : AlbumSearcher) :
    Except String (Option (List Album)) × AlbumSearcher :=
  AlbumSearcher.get_albums o
    (if s.page_count = 0 then { s with page := 1 } else s)

/-- AlbumSearcher::prev: decrement above page 1, otherwise position to 1. -/
def AlbumSearcher.prev (o : Oracle) (s : AlbumSearcher) :
    Except String (Option (List Album)) × AlbumSearcher :=
  AlbumSearcher.get_albums o
    (if s.page > 1 then { s with page := s.page - 1 } else { s with page := 1 })

/-- AlbumSearcher::next: position to page 1 while the total is unknown,
advance by one below the last page, otherwise stay. -/
def AlbumSearcher.next (o : Oracle) (s : AlbumSearcher) :
    Except String (Option (List Album)) × AlbumSearcher :=
  AlbumSearcher.get_albums o
    (if s.page_count = 0 then { s with page := 1 }
     else if s.page < s.page_count then { s with page := s.page + 1 }
     else s)

/-- AlbumSearcher::first: unconditionally position to page 1. -/
def AlbumSearcher.first (o : Oracle) (s : AlbumSearcher) :
    Except String (Option (List Album)) × AlbumSearcher :=
  AlbumSearcher.get_albums o { s with page := 1 }

/-- AlbumSearcher::last: while the total is unknown run next first (the
question-mark operator propagates its error, keeping the mutated state), then
position to page_count and get_albums. -/
def AlbumSearcher.last (o : Oracle) (s : AlbumSearcher) :
    Except String (Option (List Album)) × AlbumSearcher :=
  if s.page_count = 0 then
    match AlbumSearcher.next o s with
    | (Except.error e, s1) => (Except.error e, s1)
    | (Except.ok _, s1) =>
      AlbumSearcher.get_albums o { s1 with page := s1.page_count }
  else
    AlbumSearcher.get_albums o { s with page := s.page_count }

/-- AlbumSearcher::jump: a requested page below 1 resolves to page 1; otherwise
run next first while the total is unknown (propagating its error), then clamp
the requested page against page_count. -/
def AlbumSearcher.jump (n : Nat) (o : Oracle) (s : AlbumSearcher) :
    Except String (Option (List Album)) × AlbumSearcher :=
  if n < 1 then AlbumSearcher.get_albums o { s with page := 1 }
  else if s.page_count = 0 then
    match AlbumSearcher.next o s with
    | (Except.error e, s1) => (Except.error e, s1)
    | (Except.ok _, s1) =>
      AlbumSearcher.get_albums o
        { s1 with page := if s1.page_count < n then s1.page_count else n }
  else
    AlbumSearcher.get_albums o
      { s with page := if s.page_count < n then s.page_count else n }

/-- The errors AlbumSearcher::download produces, one constructor per distinct
anyhow message of the source. -/
inductive DownloadError
  | noData
  | errorAlbumIndex
  | errorAlbumIndexMax (maxIdx : Nat)
  | currentPageNoData
deriving DecidableEq

/-- AlbumSearcher::download: guard page_count, page and the index, then select
the (1-based) album from the cached entry of the current page.  The cache get
promotes the entry.  On success the chosen album is returned (the source then
hands it to the download pipeline); the getD default is unreachable because
the index was bounds-checked. -/
def AlbumSearcher.download (s : AlbumSearcher) (idx : Nat) :
    Except DownloadError Album × AlbumSearcher :=
  if s.page_count = 0 then (Except.error DownloadError.noData, s)
  else if s.page = 0 then (Except.error DownloadError.noData, s)
  else if idx = 0 then (Except.error DownloadError.errorAlbumIndex, s)
  else
    match cacheGet s.albums (pageKey s.page) with
    | (none, c) => (Except.error DownloadError.currentPageNoData, { s with albums := c })
    | (some albums, c) =>
      if albums.length < idx then
        (Except.error (DownloadError.errorAlbumIndexMax albums.length), { s with albums := c })
      else
        (Except.ok (albums.getD (idx - 1) { name := "", url := "" }), { s with albums := c })

/-- One public operation of a searcher, as dispatched by the CLI and the web
front end. -/
inductive SearcherOp
  | opCurrent
  | opFirst
  | opPrev
  | opNext
  | opLast
  | opJump (n : Nat)
  | opDownload (idx : Nat)

/-- State reached after one operation (the oracle supplies the parser
responses used while it runs). -/
def runOp : SearcherOp → Oracle → AlbumSearcher → AlbumSearcher
  | SearcherOp.opCurrent, o, s => (AlbumSearcher.current o s).2
  | SearcherOp.opFirst, o, s => (AlbumSearcher.first o s).2
  | SearcherOp.opPrev, o, s => (AlbumSearcher.prev o s).2
  | SearcherOp.opNext, o, s => (AlbumSearcher.next o s).2
  | SearcherOp.opLast, o, s => (AlbumSearcher.last o s).2
  | SearcherOp.opJump n, o, s => (AlbumSearcher.jump n o s).2
  | SearcherOp.opDownload idx, _, s => (AlbumSearcher.download s idx).2

/-- State reached after a sequence of operations, each with the oracle that
served it. -/
def runOps : List (SearcherOp × Oracle) → AlbumSearcher → AlbumSearcher
  | [], s => s
  | (op, o) :: rest, s => runOps rest (runOp op o s)

/-- An oracle whose successful responses always report a positive total. -/
def PositiveOracle (o : Oracle) : Prop :=
  ∀ p al r, o p = Except.ok (al, r) → 1 ≤ r

/-- A trace in which every operation ran against a positive-total oracle. -/
def PositiveTrace (trace : List (SearcherOp × Oracle)) : Prop :=
  ∀ e ∈ trace, PositiveOracle e.2

/-- The page/page_count invariant of a searcher: while the total is unknown the
searcher is at most at page 1 with an empty cache, and once the total is known
the page lies in the interval from 1 to page_count. -/
def SearcherInv (s : AlbumSearcher) : Prop :=
  (s.page_count = 0 → s.page ≤ 1 ∧ s.albums = []) ∧
  (0 < s.page_count → 1 ≤ s.page ∧ s.page ≤ s.page_count)

/-- Oracle used by concrete witnesses: every page fetch succeeds reporting a
total of 3 pages. -/
def oPos : Oracle := fun _ => Except.ok ([], 3)

/-- Oracle used by the counterexample to page-range invariance: the first page
reports a total of 0 (as SFTKParser::parse_page_count does when the page
indicator is absent), any other fetch reports 3. -/
def oCex : Oracle := fun p => if p = 1 then Except.ok ([], 0) else Except.ok ([], 3)

/-! ## Album::download_pictures (src/src/lib.rs, lines 78-127)
The pipeline is embedded with its three effectful stages as oracles: the
picture-list resolution (parser.get_all_pictures), the directory creation
(create_dir_all on the destination joined with the sanitized album name), and
the per-picture download unit (download_picture, whose failure the source
catches and logs inside the spawned task).  The semaphore acquire of the
source can only fail on a closed semaphore and the semaphore is never closed,
so it is modelled as succeeding. -/

/-- Album::download_pictures.  The result records, for a successful batch, the
outcome of every scheduled unit in order; a batch-level error arises from the
picture-list stage or the directory stage only. -/
def download_pictures (name : String)
    (pics : Except String (List String))
    (mkdir : List Char → Except String Unit)
    (unitOutcome : String → Except String Unit) :
    Except String (List (String × Except String Unit)) :=
  match pics with
  | Except.error e => Except.error e
  | Except.ok ps =>
    match mkdir (filenamify name.data []) with
    | Except.error e => Except.error e
    | Except.ok _ => Except.ok (ps.map (fun u => (u, unitOutcome u)))

/-- Discriminator for batch results, Except.isOk spelled out. -/
def exceptIsOk : Except ε α → Bool
  | Except.ok _ => true
  | Except.error _ => false

/-! ## SFTKParser::get_all_pictures (src/src/lib.rs, lines 442-454) and the
web handler get_album_by_url (src/src/bin/web.rs, lines 220-251)
URLs and HTML are lists of UTF-8 bytes here, because the source slices the
album URL at a byte offset.  A panic is Option.none. -/

/-- Bytes of an ASCII string literal. -/
def strBytes (s : String) : List Nat := s.data.map Char.toNat

/-- Rust str::is_char_boundary: position 0 always is, the length is, and an
interior position is a boundary exactly when its byte is not a UTF-8
continuation byte (0x80 to 0xBF). -/
def isUtf8CharBoundary (bytes : List Nat) (i : Nat) : Bool :=
  if i = 0 then true
  else
    match bytes.get? i with
    | some b => !(128 ≤ b && b ≤ 191)
    | none => i = bytes.length

/-- The expression &url[0..url.len() - 5] of SFTKParser::get_all_pictures.
none is a panic: when the URL is shorter than 5 bytes the subtraction
underflows (debug) or the range exceeds the length (release), and when the
end position is not a character boundary the slice itself panics. -/
def sftkBaseUrl (url : List Nat) : Option (List Nat) :=
  if 5 ≤ url.length then
    if isUtf8CharBoundary url (url.length - 5) then
      some (url.take (url.length - 5))
    else none
  else none

/-- format!("{}_{}.html", base_url, i): the sub-page URL of one album page. -/
def subPageUrl (base : List Nat) (i : Nat) : List Nat :=
  base ++ strBytes "_" ++ strBytes (Nat.repr i) ++ strBytes ".html"

/-- The loop of get_all_pictures: fetch each sub-page in order, concatenating
the pictures; the question-mark operator propagates the first failure. -/
def collectPages (pagePics : List Nat → Except String (List (List Nat)))
    (base : List Nat) : List Nat → Except String (List (List Nat))
  | [] => Except.ok []
  | i :: rest =>
    match pagePics (subPageUrl base i) with
    | Except.error e => Except.error e
    | Except.ok ps =>
      match collectPages pagePics base rest with
      | Except.error e => Except.error e
      | Except.ok more => Except.ok (ps ++ more)

/-- SFTKParser::get_all_pictures: fetch the album page, count its sub-pages
with get_pagination, derive the sub-page base URL by slicing five bytes (the
".html" suffix) off the album URL without any length or boundary check, then
fetch pages 1..=page_count.  The fetch, the pagination count and the per-page
picture extraction are oracles; none is a panic of the slice. -/
def SFTKParser.get_all_pictures
    (fetch : List Nat → Except String (List Nat))
    (pagct : List Nat → Nat)
    (pagePics : List Nat → Except String (List (List Nat)))
    (url : List Nat) : Option (Except String (List (List Nat))) :=
  match fetch url with
  | Except.error e => some (Except.error e)
  | Except.ok html =>
    match sftkBaseUrl url with
    | none => none
    | some base =>
      some (collectPages pagePics base ((List.range (pagct html)).map (fun i => i + 1)))

/-- DiLi360Parser::get_all_pictures simply forwards to get_page_pictures on
the album URL itself; no slicing, no panic. -/
def DiLi360Parser.get_all_pictures
    (pagePics : List Nat → Except String (List (List Nat)))
    (url : List Nat) : Except String (List (List Nat)) :=
  pagePics url

/-- Rust str::to_uppercase as used by parser::parse on the parser code; the
codes compared against are ASCII, modelled as the ASCII uppercase map. -/
def toUpperAscii (l : List Char) : List Char :=
  l.map (fun c => if 'a' ≤ c ∧ c ≤ 'z' then Char.ofNat (c.toNat - 32) else c)

/-- The JSON reply of the web handler, reduced to its two shapes. -/
inductive WebResponse
  | success (pictures : List (List Nat))
  | failure (message : String)
deriving DecidableEq

/-- get_album_by_url of src/src/bin/web.rs: resolve the parser from the
caller-supplied code (parser::parse upper-cases it and knows DILI360 and
SFTK), then call its get_all_pictures on the caller-supplied URL, mapping
successes to proxy locators format!("/album/picture?url={}", picture) and
errors to a failure reply.  A panic inside SFTK get_all_pictures escapes the
handler: none. -/
def get_album_by_url
    (fetch : List Nat → Except String (List Nat))
    (pagct : List Nat → Nat)
    (pagePics : List Nat → Except String (List (List Nat)))
    (diliPics : List Nat → Except String (List (List Nat)))
    (parserCode : List Char) (url : List Nat) : Option WebResponse :=
  if toUpperAscii parserCode = "SFTK".data then
    match SFTKParser.get_all_pictures fetch pagct pagePics url with
    | none => none
    | some (Except.error e) => some (WebResponse.failure e)
    | some (Except.ok pics) =>
      some (WebResponse.success (pics.map (fun p => strBytes "/album/picture?url=" ++ p)))
  else if toUpperAscii parserCode = "DILI360".data then
    match DiLi360Parser.get_all_pictures diliPics url with
    | Except.error e => some (WebResponse.failure e)
    | Except.ok pics =>
      some (WebResponse.success (pics.map (fun p => strBytes "/album/picture?url=" ++ p)))
  else some (WebResponse.failure "unknown parser")

/-- Trivial network oracles for concrete witnesses. -/
def fetchOk : List Nat → Except String (List Nat) := fun _ => Except.ok []

/-- Pagination oracle reporting no sub-page links (get_pagination then yields
its minimum). -/
def pagctZero : List Nat → Nat := fun _ => 0

/-- Per-page picture oracle returning no pictures. -/
def pagePicsOk : List Nat → Except String (List (List Nat)) := fun _ => Except.ok []

/-- Normal form of the outer-period stripping when the replacement is empty:
drop leading periods, then trailing ones. -/
def stripOuter (l : List Char) : List Char :=
  ((l.dropWhile isPeriod).reverse.dropWhile isPeriod).reverse

/-! ## Lemmas about filenamify -/

lemma filter_dropWhile (p : α → Bool) (l : List α) :
    (l.dropWhile p).filter (fun c => !p c) = l.filter (fun c => !p c) := by
  induction l with
  | nil => rfl
  | cons a t ih =>
    rw [List.dropWhile_cons]
    by_cases h : p a
    · simp [h, ih]
    · simp [h]

lemma replaceReservedAux_nil (b : Bool) (l : List Char) :
    replaceReservedAux [] b l = l.filter (fun c => !reservedChar c) := by
  induction l generalizing b with
  | nil => rfl
  | cons c cs ih =>
    rw [replaceReservedAux]
    by_cases h : reservedChar c
    · simp [h, ih]
    · simp [h, ih]

lemma replaceReserved_nil (l : List Char) :
    replaceReserved [] l = l.filter (fun c => !reservedChar c) :=
  replaceReservedAux_nil false l

lemma dropWhile_eq_self_of_takeWhile_nil (p : α → Bool) (l : List α)
    (h : l.takeWhile p = []) : l.dropWhile p = l := by
  cases l with
  | nil => rfl
  | cons a t =>
    rw [List.takeWhile_cons] at h
    rw [List.dropWhile_cons]
    by_cases ha : p a
    · simp [ha] at h
    · simp [ha]

lemma replaceTrailingPeriods_nil (l : List Char) :
    replaceTrailingPeriods [] l = (l.reverse.dropWhile isPeriod).reverse := by
  unfold replaceTrailingPeriods
  by_cases h : l.reverse.takeWhile isPeriod = []
  · rw [if_pos h, dropWhile_eq_self_of_takeWhile_nil _ _ h, List.reverse_reverse]
  · rw [if_neg h, List.append_nil]

lemma dropWhile_eq_self_of_head (p : α → Bool) (l : List α)
    (h : ∀ c, l.head? = some c → p c = false) : l.dropWhile p = l := by
  cases l with
  | nil => rfl
  | cons a t =>
    rw [List.dropWhile_cons]
    simp [h a rfl]

lemma replaceOuterPeriods_nil (l : List Char) :
    replaceOuterPeriods [] l = stripOuter l := by
  unfold replaceOuterPeriods stripOuter
  by_cases h : l.head? = some '.'
  · rw [if_pos h, List.nil_append, replaceTrailingPeriods_nil]
  · rw [if_neg h, replaceTrailingPeriods_nil]
    have hd : l.dropWhile isPeriod = l := by
      apply dropWhile_eq_self_of_head
      intro c hc
      have hcp : c ≠ '.' := fun he => h (by rw [hc, he])
      simp [isPeriod, hcp]
    rw [hd]

lemma filenamify_nil (x : List Char) :
    filenamify x [] = stripOuter (x.filter (fun c => !reservedChar c)) := by
  simp only [filenamify, replaceReserved_nil, replaceOuterPeriods_nil]
  split <;> simp

lemma mem_stripOuter {c : Char} {m : List Char} (h : c ∈ stripOuter m) : c ∈ m := by
  unfold stripOuter at h
  rw [List.mem_reverse] at h
  have h1 := (List.dropWhile_sublist isPeriod).subset h
  rw [List.mem_reverse] at h1
  exact (List.dropWhile_sublist isPeriod).subset h1

lemma head?_dropWhile_false (p : α → Bool) (l : List α) (a : α)
    (h : (l.dropWhile p).head? = some a) : p a = false := by
  induction l with
  | nil => simp [List.dropWhile] at h
  | cons b t ih =>
    rw [List.dropWhile_cons] at h
    by_cases hb : p b
    · simp only [hb, if_true] at h
      exact ih h
    · simp only [hb] at h
      simp only [if_neg, Bool.false_eq_true, not_false_iff, List.head?_cons,
        Option.some.injEq] at h
      subst h
      simpa using hb

lemma getLast?_dropWhile (p : α → Bool) (l : List α) (h : l.dropWhile p ≠ []) :
    (l.dropWhile p).getLast? = l.getLast? := by
  induction l with
  | nil => simp at h
  | cons a t ih =>
    rw [List.dropWhile_cons] at h ⊢
    by_cases ha : p a
    · simp only [ha, if_true] at h ⊢
      rw [ih h]
      cases t with
      | nil => simp [List.dropWhile] at h
      | cons b u => exact (List.getLast?_cons_cons).symm
    · simp only [ha] at h ⊢
      simp

lemma head?_stripOuter (m : List Char) (c : Char)
    (h : (stripOuter m).head? = some c) : isPeriod c = false := by
  unfold stripOuter at h
  rw [List.head?_reverse] at h
  have hne : (m.dropWhile isPeriod).reverse.dropWhile isPeriod ≠ [] := by
    intro he
    rw [he] at h
    simp at h
  rw [getLast?_dropWhile _ _ hne, List.getLast?_reverse] at h
  exact head?_dropWhile_false _ _ _ h

lemma getLast?_stripOuter (m : List Char) (c : Char)
    (h : (stripOuter m).getLast? = some c) : isPeriod c = false := by
  unfold stripOuter at h
  rw [List.getLast?_reverse] at h
  exact head?_dropWhile_false _ _ _ h

lemma get_albums_page (o : Oracle) (s : AlbumSearcher) :
    (AlbumSearcher.get_albums o s).2.page = s.page := by
  simp only [AlbumSearcher.get_albums]
  split
  · rfl
  · split <;> rfl

lemma updatePageCount_le (old r : Nat) : old ≤ updatePageCount old r := by
  unfold updatePageCount
  by_cases h : (old == 0 || old < r) = true
  · rw [if_pos h]
    simp at h
    omega
  · rw [if_neg h]

lemma updatePageCount_eq_max (old r : Nat) : updatePageCount old r = max old r := by
  unfold updatePageCount
  by_cases h : (old == 0 || old < r) = true
  · rw [if_pos h]
    simp at h
    rcases h with h | h
    · simp [h]
    · exact (Nat.max_eq_right (Nat.le_of_lt h)).symm
  · rw [if_neg h]
    simp at h
    exact (Nat.max_eq_left h.2).symm

lemma get_albums_pc_le (o : Oracle) (s : AlbumSearcher) :
    s.page_count ≤ (AlbumSearcher.get_albums o s).2.page_count := by
  simp only [AlbumSearcher.get_albums]
  split
  · exact le_rfl
  · split
    · exact le_rfl
    · exact updatePageCount_le _ _

lemma get_albums_zero (o : Oracle) (s : AlbumSearcher) (hpos : PositiveOracle o)
    (hz : s.page_count = 0) (he : s.albums = []) :
    (∃ e, AlbumSearcher.get_albums o s = (Except.error e, s)) ∨
    1 ≤ (AlbumSearcher.get_albums o s).2.page_count := by
  have hcc : cacheContains s.albums (pageKey s.page) = false := by
    rw [he]; rfl
  simp only [AlbumSearcher.get_albums, hcc, Bool.false_eq_true, if_false]
  cases ho : o s.page with
  | error e => exact Or.inl ⟨e, rfl⟩
  | ok v =>
    cases v with
    | mk al r =>
      right
      have hr : 1 ≤ r := hpos _ _ _ ho
      have : updatePageCount s.page_count r = r := by
        unfold updatePageCount
        rw [hz]
        simp
      simpa [this]

lemma get_albums_inv (o : Oracle) (s : AlbumSearcher) (hpos : PositiveOracle o)
    (h0 : s.page_count = 0 → s.page = 1 ∧ s.albums = [])
    (h1 : 0 < s.page_count → 1 ≤ s.page ∧ s.page ≤ s.page_count) :
    SearcherInv (AlbumSearcher.get_albums o s).2 := by
  rcases Nat.eq_zero_or_pos s.page_count with hz | hp
  · obtain ⟨hpg, hemp⟩ := h0 hz
    rcases get_albums_zero o s hpos hz hemp with ⟨e, hres⟩ | hge
    · have hs : SearcherInv s := ⟨fun _ => ⟨by omega, hemp⟩, fun hc => by omega⟩
      rw [hres]
      exact hs
    · constructor
      · intro hc
        omega
      · intro _
        rw [get_albums_page]
        exact ⟨by omega, by omega⟩
  · have h12 := h1 hp
    have hle := get_albums_pc_le o s
    constructor
    · intro hc
      omega
    · intro _
      rw [get_albums_page]
      exact ⟨h12.1, le_trans h12.2 hle⟩

lemma current_inv (o : Oracle) (s : AlbumSearcher) (hpos : PositiveOracle o)
    (hinv : SearcherInv s) : SearcherInv (AlbumSearcher.current o s).2 := by
  unfold AlbumSearcher.current
  rcases Nat.eq_zero_or_pos s.page_count with hz | hp
  · rw [if_pos hz]
    have h0 : s.page_count = 0 → (1 : Nat) = 1 ∧ s.albums = [] :=
      fun _ => ⟨rfl, (hinv.1 hz).2⟩
    have h1 : 0 < s.page_count → 1 ≤ (1 : Nat) ∧ (1 : Nat) ≤ s.page_count :=
      fun h => absurd hz (by omega)
    exact get_albums_inv o _ hpos h0 h1
  · rw [if_neg (by omega)]
    have h0 : s.page_count = 0 → s.page = 1 ∧ s.albums = [] :=
      fun h => absurd h (by omega)
    exact get_albums_inv o s hpos h0 hinv.2

lemma first_inv (o : Oracle) (s : AlbumSearcher) (hpos : PositiveOracle o)
    (hinv : SearcherInv s) : SearcherInv (AlbumSearcher.first o s).2 := by
  unfold AlbumSearcher.first
  rcases Nat.eq_zero_or_pos s.page_count with hz | hp
  · have h0 : s.page_count = 0 → (1 : Nat) = 1 ∧ s.albums = [] :=
      fun _ => ⟨rfl, (hinv.1 hz).2⟩
    have h1 : 0 < s.page_count → 1 ≤ (1 : Nat) ∧ (1 : Nat) ≤ s.page_count :=
      fun h => absurd hz (by omega)
    exact get_albums_inv o _ hpos h0 h1
  · have h0 : s.page_count = 0 → (1 : Nat) = 1 ∧ s.albums = [] :=
      fun h => absurd h (by omega)
    have h1 : 0 < s.page_count → 1 ≤ (1 : Nat) ∧ (1 : Nat) ≤ s.page_count :=
      fun _ => ⟨le_rfl, hp⟩
    exact get_albums_inv o _ hpos h0 h1

lemma prev_inv (o : Oracle) (s : AlbumSearcher) (hpos : PositiveOracle o)
    (hinv : SearcherInv s) : SearcherInv (AlbumSearcher.prev o s).2 := by
  unfold AlbumSearcher.prev
  rcases Nat.eq_zero_or_pos s.page_count with hz | hp
  · have hle := (hinv.1 hz).1
    rw [if_neg (by omega)]
    have h0 : s.page_count = 0 → (1 : Nat) = 1 ∧ s.albums = [] :=
      fun _ => ⟨rfl, (hinv.1 hz).2⟩
    have h1 : 0 < s.page_count → 1 ≤ (1 : Nat) ∧ (1 : Nat) ≤ s.page_count :=
      fun h => absurd hz (by omega)
    exact get_albums_inv o _ hpos h0 h1
  · obtain ⟨ha, hb⟩ := hinv.2 hp
    by_cases hgt : s.page > 1
    · rw [if_pos hgt]
      have h0 : s.page_count = 0 → s.page - 1 = 1 ∧ s.albums = [] :=
        fun h => absurd h (by omega)
      have h1 : 0 < s.page_count → 1 ≤ s.page - 1 ∧ s.page - 1 ≤ s.page_count :=
        fun _ => ⟨by omega, by omega⟩
      exact get_albums_inv o _ hpos h0 h1
    · rw [if_neg hgt]
      have h0 : s.page_count = 0 → (1 : Nat) = 1 ∧ s.albums = [] :=
        fun h => absurd h (by omega)
      have h1 : 0 < s.page_count → 1 ≤ (1 : Nat) ∧ (1 : Nat) ≤ s.page_count :=
        fun _ => ⟨le_rfl, hp⟩
      exact get_albums_inv o _ hpos h0 h1

lemma next_inv (o : Oracle) (s : AlbumSearcher) (hpos : PositiveOracle o)
    (hinv : SearcherInv s) : SearcherInv (AlbumSearcher.next o s).2 := by
  unfold AlbumSearcher.next
  rcases Nat.eq_zero_or_pos s.page_count with hz | hp
  · rw [if_pos hz]
    have h0 : s.page_count = 0 → (1 : Nat) = 1 ∧ s.albums = [] :=
      fun _ => ⟨rfl, (hinv.1 hz).2⟩
    have h1 : 0 < s.page_count → 1 ≤ (1 : Nat) ∧ (1 : Nat) ≤ s.page_count :=
      fun h => absurd hz (by omega)
    exact get_albums_inv o _ hpos h0 h1
  · rw [if_neg (by omega)]
    obtain ⟨ha, hb⟩ := hinv.2 hp
    by_cases hlt : s.page < s.page_count
    · rw [if_pos hlt]
      have h0 : s.page_count = 0 → s.page + 1 = 1 ∧ s.albums = [] :=
        fun h => absurd h (by omega)
      have h1 : 0 < s.page_count → 1 ≤ s.page + 1 ∧ s.page + 1 ≤ s.page_count :=
        fun _ => ⟨by omega, by omega⟩
      exact get_albums_inv o _ hpos h0 h1
    · rw [if_neg hlt]
      have h0 : s.page_count = 0 → s.page = 1 ∧ s.albums = [] :=
        fun h => absurd h (by omega)
      exact get_albums_inv o s hpos h0 hinv.2

lemma next_ok_pc_pos (o : Oracle) (s : AlbumSearcher) (hpos : PositiveOracle o)
    (hinv : SearcherInv s) (hz : s.page_count = 0) (v : Option (List Album))
    (hok : (AlbumSearcher.next o s).1 = Except.ok v) :
    1 ≤ (AlbumSearcher.next o s).2.page_count := by
  unfold AlbumSearcher.next at hok ⊢
  rw [if_pos hz] at hok ⊢
  rcases get_albums_zero o { s with page := 1 } hpos hz (hinv.1 hz).2 with ⟨e, hres⟩ | hge
  · rw [hres] at hok
    simp at hok
  · exact hge

lemma last_inv (o : Oracle) (s : AlbumSearcher) (hpos : PositiveOracle o)
    (hinv : SearcherInv s) : SearcherInv (AlbumSearcher.last o s).2 := by
  unfold AlbumSearcher.last
  rcases Nat.eq_zero_or_pos s.page_count with hz | hp
  · rw [if_pos hz]
    cases hres : AlbumSearcher.next o s with
    | mk res s1 =>
      cases res with
      | error e =>
        have h := next_inv o s hpos hinv
        rw [hres] at h
        exact h
      | ok v =>
        have hpc1 : 1 ≤ s1.page_count := by
          have h := next_ok_pc_pos o s hpos hinv hz v (by rw [hres])
          rw [hres] at h
          exact h
        have h0 : s1.page_count = 0 → s1.page_count = 1 ∧ s1.albums = [] :=
          fun h => absurd h (by omega)
        have h1 : 0 < s1.page_count → 1 ≤ s1.page_count ∧ s1.page_count ≤ s1.page_count :=
          fun _ => ⟨hpc1, le_rfl⟩
        exact get_albums_inv o _ hpos h0 h1
  · rw [if_neg (by omega)]
    have h0 : s.page_count = 0 → s.page_count = 1 ∧ s.albums = [] :=
      fun h => absurd h (by omega)
    have h1 : 0 < s.page_count → 1 ≤ s.page_count ∧ s.page_count ≤ s.page_count :=
      fun _ => ⟨hp, le_rfl⟩
    exact get_albums_inv o _ hpos h0 h1

lemma jump_inv (n : Nat) (o : Oracle) (s : AlbumSearcher) (hpos : PositiveOracle o)
    (hinv : SearcherInv s) : SearcherInv (AlbumSearcher.jump n o s).2 := by
  unfold AlbumSearcher.jump
  by_cases hn : n < 1
  · rw [if_pos hn]
    rcases Nat.eq_zero_or_pos s.page_count with hz | hp
    · have h0 : s.page_count = 0 → (1 : Nat) = 1 ∧ s.albums = [] :=
        fun _ => ⟨rfl, (hinv.1 hz).2⟩
      have h1 : 0 < s.page_count → 1 ≤ (1 : Nat) ∧ (1 : Nat) ≤ s.page_count :=
        fun h => absurd hz (by omega)
      exact get_albums_inv o _ hpos h0 h1
    · have h0 : s.page_count = 0 → (1 : Nat) = 1 ∧ s.albums = [] :=
        fun h => absurd h (by omega)
      have h1 : 0 < s.page_count → 1 ≤ (1 : Nat) ∧ (1 : Nat) ≤ s.page_count :=
        fun _ => ⟨le_rfl, hp⟩
      exact get_albums_inv o _ hpos h0 h1
  · rw [if_neg hn]
    rcases Nat.eq_zero_or_pos s.page_count with hz | hp
    · rw [if_pos hz]
      cases hres : AlbumSearcher.next o s with
      | mk res s1 =>
        cases res with
        | error e =>
          have h := next_inv o s hpos hinv
          rw [hres] at h
          exact h
        | ok v =>
          have hpc1 : 1 ≤ s1.page_count := by
            have h := next_ok_pc_pos o s hpos hinv hz v (by rw [hres])
            rw [hres] at h
            exact h
          have h0 : s1.page_count = 0 →
              (if s1.page_count < n then s1.page_count else n) = 1 ∧ s1.albums = [] :=
            fun h => absurd h (by omega)
          have h1 : 0 < s1.page_count →
              1 ≤ (if s1.page_count < n then s1.page_count else n) ∧
              (if s1.page_count < n then s1.page_count else n) ≤ s1.page_count := by
            intro _
            by_cases hlt : s1.page_count < n
            · rw [if_pos hlt]
              exact ⟨hpc1, le_rfl⟩
            · rw [if_neg hlt]
              exact ⟨by omega, by omega⟩
          exact get_albums_inv o _ hpos h0 h1
    · rw [if_neg (by omega)]
      have h0 : s.page_count = 0 →
          (if s.page_count < n then s.page_count else n) = 1 ∧ s.albums = [] :=
        fun h => absurd h (by omega)
      have h1 : 0 < s.page_count →
          1 ≤ (if s.page_count < n then s.page_count else n) ∧
          (if s.page_count < n then s.page_count else n) ≤ s.page_count := by
        intro _
        by_cases hlt : s.page_count < n
        · rw [if_pos hlt]
          exact ⟨hp, le_rfl⟩
        · rw [if_neg hlt]
          exact ⟨by omega, by omega⟩
      exact get_albums_inv o _ hpos h0 h1

lemma download_page_pc (s : AlbumSearcher) (idx : Nat) :
    (AlbumSearcher.download s idx).2.page = s.page ∧
    (AlbumSearcher.download s idx).2.page_count = s.page_count := by
  unfold AlbumSearcher.download
  split
  · exact ⟨rfl, rfl⟩
  · split
    · exact ⟨rfl, rfl⟩
    · split
      · exact ⟨rfl, rfl⟩
      · split
        · exact ⟨rfl, rfl⟩
        · split
          · exact ⟨rfl, rfl⟩
          · exact ⟨rfl, rfl⟩

lemma download_inv (s : AlbumSearcher) (idx : Nat) (hinv : SearcherInv s) :
    SearcherInv (AlbumSearcher.download s idx).2 := by
  by_cases h1 : s.page_count = 0
  · have h : AlbumSearcher.download s idx = (Except.error DownloadError.noData, s) := by
      unfold AlbumSearcher.download
      rw [if_pos h1]
    rw [h]
    exact hinv
  · obtain ⟨hp, hc⟩ := download_page_pc s idx
    constructor
    · intro h0
      rw [hc] at h0
      exact absurd h0 h1
    · intro hgt
      rw [hp, hc]
      exact hinv.2 (by omega)

lemma runOp_inv (op : SearcherOp) (o : Oracle) (s : AlbumSearcher)
    (hpos : PositiveOracle o) (hinv : SearcherInv s) : SearcherInv (runOp op o s) := by
  cases op with
  | opCurrent => exact current_inv o s hpos hinv
  | opFirst => exact first_inv o s hpos hinv
  | opPrev => exact prev_inv o s hpos hinv
  | opNext => exact next_inv o s hpos hinv
  | opLast => exact last_inv o s hpos hinv
  | opJump n => exact jump_inv n o s hpos hinv
  | opDownload idx => exact download_inv s idx hinv

lemma runOps_inv (trace : List (SearcherOp × Oracle)) (s : AlbumSearcher)
    (htr : PositiveTrace trace) (hinv : SearcherInv s) : SearcherInv (runOps trace s) := by
  induction trace generalizing s with
  | nil => exact hinv
  | cons e rest ih =>
    cases e with
    | mk op o =>
      exact ih (runOp op o s) (fun x hx => htr x (List.mem_cons_of_mem _ hx))
        (runOp_inv op o s (htr (op, o) (List.mem_cons_self _ _)) hinv)

lemma next_pc_le (o : Oracle) (s : AlbumSearcher) :
    s.page_count ≤ (AlbumSearcher.next o s).2.page_count := by
  unfold AlbumSearcher.next
  split
  · exact get_albums_pc_le o { s with page := 1 }
  · split
    · exact get_albums_pc_le o { s with page := s.page + 1 }
    · exact get_albums_pc_le o s

lemma runOp_pc_le (op : SearcherOp) (o : Oracle) (s : AlbumSearcher) :
    s.page_count ≤ (runOp op o s).page_count := by
  cases op with
  | opCurrent =>
    simp only [runOp]
    unfold AlbumSearcher.current
    split
    · exact get_albums_pc_le o { s with page := 1 }
    · exact get_albums_pc_le o s
  | opFirst =>
    simp only [runOp]
    exact get_albums_pc_le o { s with page := 1 }
  | opPrev =>
    simp only [runOp]
    unfold AlbumSearcher.prev
    split
    · exact get_albums_pc_le o { s with page := s.page - 1 }
    · exact get_albums_pc_le o { s with page := 1 }
  | opNext =>
    simp only [runOp]
    exact next_pc_le o s
  | opLast =>
    simp only [runOp]
    unfold AlbumSearcher.last
    split
    · cases hres : AlbumSearcher.next o s with
      | mk res s1 =>
        cases res with
        | error e =>
          have h := next_pc_le o s
          rw [hres] at h
          exact h
        | ok v =>
          have h := next_pc_le o s
          rw [hres] at h
          exact le_trans h (get_albums_pc_le o { s1 with page := s1.page_count })
    · exact get_albums_pc_le o { s with page := s.page_count }
  | opJump n =>
    simp only [runOp]
    unfold AlbumSearcher.jump
    split
    · exact get_albums_pc_le o { s with page := 1 }
    · split
      · cases hres : AlbumSearcher.next o s with
        | mk res s1 =>
          cases res with
          | error e =>
            have h := next_pc_le o s
            rw [hres] at h
            exact h
          | ok v =>
            have h := next_pc_le o s
            rw [hres] at h
            exact le_trans h (get_albums_pc_le o
              { s1 with page := if s1.page_count < n then s1.page_count else n })
      · exact get_albums_pc_le o
          { s with page := if s.page_count < n then s.page_count else n }
  | opDownload idx =>
    simp only [runOp]
    exact le_of_eq (download_page_pc s idx).2.symm

lemma runOps_pc_le (trace : List (SearcherOp × Oracle)) (s : AlbumSearcher) :
    s.page_count ≤ (runOps trace s).page_count := by
  induction trace generalizing s with
  | nil => exact le_rfl
  | cons e rest ih =>
    cases e with
    | mk op o => exact le_trans (runOp_pc_le op o s) (ih (runOp op o s))

lemma stripOuter_eq_self (y : List Char)
    (h1 : ∀ c, y.head? = some c → isPeriod c = false)
    (h2 : ∀ c, y.getLast? = some c → isPeriod c = false) :
    stripOuter y = y := by
  unfold stripOuter
  rw [dropWhile_eq_self_of_head _ _ h1]
  rw [dropWhile_eq_self_of_head _ _ (fun c hc => h2 c (by rwa [← List.head?_reverse]))]
  exact List.reverse_reverse y

lemma searcherInv_new (keyword : String) (size : Nat) :
    SearcherInv (AlbumSearcher.new keyword size) := by
  constructor
  · intro _
    exact ⟨show (0 : Nat) ≤ 1 by omega, rfl⟩
  · intro h
    simp [AlbumSearcher.new] at h

/-! ## Claim theorems -/

/-- Claim C1, counterexample.  The claim asserts that the sanitized output
never case-insensitively equals a reserved device name and in particular that
sanitize("CON") differs from "CON".  The WINDOWS_RESERVED regex of the source
is lower-case and case-sensitive, so "CON" is not recognised, and the call
site passes the empty replacement, so even "con" is returned unchanged. -/
theorem spec_c1_counterexample :
    filenamify "CON".data [] = "CON".data ∧ filenamify "con".data [] = "con".data := by
  exact ⟨by decide, by decide⟩

/-- Claim C1 (amended): for every input, the sanitized output (with the empty
replacement used by Album::download_pictures) contains no reserved character
and no control code point and neither starts nor ends with a period; and
sanitize("a/b:c") = "abc".  The reserved-device-name clause of the original
claim is dropped: it fails, see the counterexample. -/
theorem spec_c1_sanitize_output :
    (∀ x : List Char,
        (filenamify x []).all (fun c => !reservedChar c) = true ∧
        ((filenamify x []).head? == some '.') = false ∧
        ((filenamify x []).getLast? == some '.') = false) ∧
    filenamify "a/b:c".data [] = "abc".data := by
  constructor
  · intro x
    refine ⟨?_, ?_, ?_⟩
    · rw [List.all_eq_true]
      intro c hc
      rw [filenamify_nil] at hc
      have hmem := List.mem_filter.1 (mem_stripOuter hc)
      simpa using hmem.2
    · rw [filenamify_nil]
      cases hh : (stripOuter (x.filter (fun c => !reservedChar c))).head? with
      | none => rfl
      | some c =>
        have hc := head?_stripOuter _ _ hh
        simp [isPeriod] at hc
        simp [hc]
    · rw [filenamify_nil]
      cases hh : (stripOuter (x.filter (fun c => !reservedChar c))).getLast? with
      | none => rfl
      | some c =>
        have hc := getLast?_stripOuter _ _ hh
        simp [isPeriod] at hc
        simp [hc]
  · decide

/-- Claim C8: the album-name sanitization, as called by the download pipeline
(empty replacement), is idempotent: sanitizing an already-sanitized name is a
no-op. -/
theorem spec_c8_sanitize_idempotent (x : List Char) :
    filenamify (filenamify x []) [] = filenamify x [] := by
  rw [filenamify_nil (filenamify x [])]
  have hfilter : (filenamify x []).filter (fun c => !reservedChar c) = filenamify x [] := by
    apply List.filter_eq_self.2
    intro a ha
    rw [filenamify_nil] at ha
    exact (List.mem_filter.1 (mem_stripOuter ha)).2
  rw [hfilter, filenamify_nil x]
  exact stripOuter_eq_self _ (fun c hc => head?_stripOuter _ _ hc)
    (fun c hc => getLast?_stripOuter _ _ hc)

/-- Claim C2, counterexample.  For SFTK the claim fails: on a document in
which the page-indicator element .pagelist is structurally absent,
parse_page_count silently returns Ok 0 instead of a ParseError. -/
theorem spec_c2_counterexample :
    emptyDoc.select ".pagelist" = [] ∧
    SFTKParser.parse_page_count emptyDoc = Except.ok 0 :=
  ⟨rfl, rfl⟩

/-- Claim C2 (amended): DiLi360Parser::parse_page_count fails with a parse
error when the page-indicator element is structurally absent, but
SFTKParser::parse_page_count never fails: it returns the number of matching
.pagelist elements, which is 0 when the element is absent. -/
theorem spec_c2_page_count (doc : HtmlDoc) :
    (doc.select "#pageFooter .pager-normal-foot" = [] →
      DiLi360Parser.parse_page_count doc =
        Except.error "parse page count error: not found page element") ∧
    ∃ n, SFTKParser.parse_page_count doc = Except.ok n := by
  constructor
  · intro h
    unfold DiLi360Parser.parse_page_count
    rw [h]
    rfl
  · exact ⟨_, rfl⟩

/-- Claim C2, witness: the amended theorem applied to the concrete document
with no matching elements. -/
theorem spec_c2_witness :
    DiLi360Parser.parse_page_count emptyDoc =
      Except.error "parse page count error: not found page element" ∧
    ∃ n, SFTKParser.parse_page_count emptyDoc = Except.ok n :=
  ⟨(spec_c2_page_count emptyDoc).1 rfl, (spec_c2_page_count emptyDoc).2⟩

/-- Claim C3: the known total page count is monotonically non-decreasing over
the whole lifetime of one searcher.  Each cache-miss fetch passes the old and
the reported total through updatePageCount, which is exactly their maximum,
and no operation of a searcher ever lowers page_count (in particular it is
never reset to 0 once positive); only AlbumSearcher.new starts again from 0. -/
theorem spec_c3_page_count_monotone :
    (∀ old reported, updatePageCount old reported = max old reported) ∧
    (∀ (trace : List (SearcherOp × Oracle)) (s : AlbumSearcher),
        s.page_count ≤ (runOps trace s).page_count) :=
  ⟨updatePageCount_eq_max, fun trace s => runOps_pc_le trace s⟩

/-- Claim C4, counterexample.  Starting a fresh searcher and calling jump(5)
against a parser that reports a total of 0 for the discovery fetch of page 1
(exactly what SFTKParser reports when the page indicator is absent) and a
total of 3 for the subsequent fetch leaves the searcher at page 0 with
page_count 3: the resolved page index is 0, outside [1, totalPages], even
though totalPages is positive. -/
theorem spec_c4_counterexample :
    0 < (runOps [(SearcherOp.opJump 5, oCex)] (AlbumSearcher.new "k" 10)).page_count ∧
    (runOps [(SearcherOp.opJump 5, oCex)] (AlbumSearcher.new "k" 10)).page = 0 := by
  exact ⟨by decide, by decide⟩

/-- Claim C4 (amended): provided every successful fetch reports a positive
total (the original claim fails when a discovery fetch reports 0, see the
counterexample), every sequence of operations on a fresh searcher keeps the
invariant that once totalPages is positive the page index lies in
[1, totalPages]; and next with a known positive total advances by exactly one
when the current page is below the last page and otherwise leaves the page
unchanged. -/
theorem spec_c4_page_in_range :
    (∀ (trace : List (SearcherOp × Oracle)) (keyword : String) (size : Nat),
        PositiveTrace trace →
        SearcherInv (runOps trace (AlbumSearcher.new keyword size))) ∧
    (∀ (o : Oracle) (s : AlbumSearcher), 0 < s.page_count →
        (AlbumSearcher.next o s).2.page =
          if s.page < s.page_count then s.page + 1 else s.page) := by
  constructor
  · intro trace keyword size htr
    exact runOps_inv trace _ htr (searcherInv_new keyword size)
  · intro o s hpc
    unfold AlbumSearcher.next
    rw [if_neg (by omega)]
    by_cases hlt : s.page < s.page_count
    · rw [if_pos hlt, if_pos hlt, get_albums_page]
    · rw [if_neg hlt, if_neg hlt, get_albums_page]

/-- Claim C4, witness: the amended theorem applied to a one-step trace with a
positive-total oracle, and to a concrete positioned searcher for the
next-advances clause. -/
theorem spec_c4_witness :
    SearcherInv (runOps [(SearcherOp.opJump 5, oPos)] (AlbumSearcher.new "k" 10)) ∧
    (AlbumSearcher.next oPos
      { page := 1, page_count := 3, size := 10, keyword := "k",
        albums := [("page-1", [])] }).2.page = 2 := by
  constructor
  · apply spec_c4_page_in_range.1
    intro e he p al r h
    cases List.mem_singleton.1 he
    simp only [oPos] at h
    injection h with h2
    injection h2 with h3 h4
    omega
  · have h := spec_c4_page_in_range.2 oPos
      { page := 1, page_count := 3, size := 10, keyword := "k", albums := [("page-1", [])] }
      (by decide)
    rw [h]
    decide

/-- Claim C5: jump clamps its argument.  A requested page below 1 resolves to
page 1.  With a known (positive) total, jump resolves to min(totalPages, n),
so any n above totalPages resolves to exactly totalPages.  With an unknown
total, jump first performs the discovery fetch of one next call: if that next
errors, jump returns exactly what next returned, and if it succeeds, jump
resolves to min of the post-discovery totalPages and n. -/
theorem spec_c5_jump_clamps (o : Oracle) (s : AlbumSearcher) (n : Nat) :
    (n < 1 → (AlbumSearcher.jump n o s).2.page = 1) ∧
    (1 ≤ n → 0 < s.page_count →
      (AlbumSearcher.jump n o s).2.page = min s.page_count n) ∧
    (1 ≤ n → s.page_count = 0 →
      ∀ e s1, AlbumSearcher.next o s = (Except.error e, s1) →
        AlbumSearcher.jump n o s = (Except.error e, s1)) ∧
    (1 ≤ n → s.page_count = 0 →
      ∀ v s1, AlbumSearcher.next o s = (Except.ok v, s1) →
        (AlbumSearcher.jump n o s).2.page = min s1.page_count n) := by
  refine ⟨?_, ?_, ?_, ?_⟩
  · intro hn
    unfold AlbumSearcher.jump
    rw [if_pos hn, get_albums_page]
  · intro hn hpc
    unfold AlbumSearcher.jump
    rw [if_neg (by omega), if_neg (by omega), get_albums_page]
    show (if s.page_count < n then s.page_count else n) = min s.page_count n
    rcases Nat.lt_or_ge s.page_count n with hlt | hge
    · rw [if_pos hlt, min_eq_left (Nat.le_of_lt hlt)]
    · rw [if_neg (Nat.not_lt.2 hge), min_eq_right hge]
  · intro hn hz e s1 hres
    unfold AlbumSearcher.jump
    rw [if_neg (by omega), if_pos hz, hres]
  · intro hn hz v s1 hres
    unfold AlbumSearcher.jump
    rw [if_neg (by omega), if_pos hz, hres]
    show (AlbumSearcher.get_albums o
      { s1 with page := if s1.page_count < n then s1.page_count else n }).2.page =
        min s1.page_count n
    rw [get_albums_page]
    show (if s1.page_count < n then s1.page_count else n) = min s1.page_count n
    rcases Nat.lt_or_ge s1.page_count n with hlt | hge
    · rw [if_pos hlt, min_eq_left (Nat.le_of_lt hlt)]
    · rw [if_neg (Nat.not_lt.2 hge), min_eq_right hge]

/-- Claim C5, witness: jump(0) on a fresh searcher resolves to page 1;
jump(103) on a searcher that knows totalPages = 3 resolves to page 3; and
jump(5) on a fresh searcher whose discovery next reports a total of 3
resolves to page 3. -/
theorem spec_c5_witness :
    (AlbumSearcher.jump 0 oPos (AlbumSearcher.new "k" 10)).2.page = 1 ∧
    (AlbumSearcher.jump 103 oPos
      { page := 1, page_count := 3, size := 10, keyword := "k",
        albums := [("page-1", [])] }).2.page = 3 ∧
    (AlbumSearcher.jump 5 oPos (AlbumSearcher.new "k" 10)).2.page = 3 := by
  refine ⟨?_, ?_, ?_⟩
  · exact (spec_c5_jump_clamps oPos (AlbumSearcher.new "k" 10) 0).1 (by omega)
  · have h := (spec_c5_jump_clamps oPos
      { page := 1, page_count := 3, size := 10, keyword := "k",
        albums := [("page-1", [])] } 103).2.1 (by omega) (by decide)
    rw [h]
    decide
  · have h := (spec_c5_jump_clamps oPos (AlbumSearcher.new "k" 10) 5).2.2.2 (by omega) rfl
      (some [])
      { page := 1, page_count := 3, size := 10, keyword := "k", albums := [("page-1", [])] }
      (by decide)
    rw [h]
    decide

/-- Claim C6: download fails with the no-data error whenever the total is
still 0 (no page could have been fetched yet) or the searcher has never been
positioned (page 0); past those guards it fails with the invalid-index error
for index 0, and with the invalid-index error carrying the maximum when the
index exceeds the cached album count of the current page.  The embedded
download takes no network oracle at all: these error paths involve no fetch. -/
theorem spec_c6_download_errors (s : AlbumSearcher) (idx : Nat) :
    ((s.page_count = 0 ∨ s.page = 0) →
      (AlbumSearcher.download s idx).1 = Except.error DownloadError.noData) ∧
    (0 < s.page_count → 0 < s.page →
      (AlbumSearcher.download s 0).1 = Except.error DownloadError.errorAlbumIndex) ∧
    (0 < s.page_count → 0 < s.page → 0 < idx →
      ∀ al c, cacheGet s.albums (pageKey s.page) = (some al, c) → al.length < idx →
        (AlbumSearcher.download s idx).1 =
          Except.error (DownloadError.errorAlbumIndexMax al.length)) := by
  refine ⟨?_, ?_, ?_⟩
  · intro h
    unfold AlbumSearcher.download
    rcases h with h | h
    · rw [if_pos h]
    · by_cases h1 : s.page_count = 0
      · rw [if_pos h1]
      · rw [if_neg h1, if_pos h]
  · intro h1 h2
    unfold AlbumSearcher.download
    rw [if_neg (by omega), if_neg (by omega), if_pos rfl]
  · intro h1 h2 h3 al c hget hlen
    unfold AlbumSearcher.download
    rw [if_neg (by omega), if_neg (by omega), if_neg (by omega), hget]
    show (if al.length < idx then
        (Except.error (DownloadError.errorAlbumIndexMax al.length), { s with albums := c })
      else
        (Except.ok (al.getD (idx - 1) { name := "", url := "" }),
          { s with albums := c })).1 =
      Except.error (DownloadError.errorAlbumIndexMax al.length)
    rw [if_pos hlen]

/-- Claim C6, witness: the theorem applied to a fresh (never-positioned)
searcher and to a positioned searcher holding one cached album on page 1:
download 0 fails with the invalid-index error and download 2 fails with the
invalid-index error naming the maximum 1, in both cases without any oracle. -/
theorem spec_c6_witness :
    (AlbumSearcher.download (AlbumSearcher.new "k" 10) 1).1 =
      Except.error DownloadError.noData ∧
    (AlbumSearcher.download
      { page := 1, page_count := 1, size := 10, keyword := "k",
        albums := [("page-1", [{ name := "a", url := "u" }])] } 0).1 =
      Except.error DownloadError.errorAlbumIndex ∧
    (AlbumSearcher.download
      { page := 1, page_count := 1, size := 10, keyword := "k",
        albums := [("page-1", [{ name := "a", url := "u" }])] } 2).1 =
      Except.error (DownloadError.errorAlbumIndexMax 1) := by
  refine ⟨?_, ?_, ?_⟩
  · exact (spec_c6_download_errors (AlbumSearcher.new "k" 10) 1).1 (Or.inl rfl)
  · exact (spec_c6_download_errors
      { page := 1, page_count := 1, size := 10, keyword := "k",
        albums := [("page-1", [{ name := "a", url := "u" }])] } 0).2.1
      (by decide) (by decide)
  · exact (spec_c6_download_errors
      { page := 1, page_count := 1, size := 10, keyword := "k",
        albums := [("page-1", [{ name := "a", url := "u" }])] } 2).2.2
      (by decide) (by decide) (by decide)
      [{ name := "a", url := "u" }]
      [("page-1", [{ name := "a", url := "u" }])]
      (by decide) (by decide)

/-- Claim C7: a batch returns an error only when resolving the picture list
or creating the destination directory fails; with both succeeding, the batch
returns the outcome of every scheduled unit, each determined only by its own
download, so one failing unit never removes a sibling from the batch; and the
batch-level success is independent of the per-unit outcomes, so a unit
failure never turns the batch result into an error. -/
theorem spec_c7_batch_error_isolation (name : String)
    (pics : Except String (List String))
    (mkdir : List Char → Except String Unit) (u1 u2 : String → Except String Unit) :
    (∀ e, download_pictures name pics mkdir u1 = Except.error e →
      pics = Except.error e ∨ mkdir (filenamify name.data []) = Except.error e) ∧
    (∀ ps, pics = Except.ok ps → mkdir (filenamify name.data []) = Except.ok () →
      download_pictures name pics mkdir u1 = Except.ok (ps.map (fun u => (u, u1 u)))) ∧
    exceptIsOk (download_pictures name pics mkdir u1) =
      exceptIsOk (download_pictures name pics mkdir u2) := by
  refine ⟨?_, ?_, ?_⟩
  · intro e h
    unfold download_pictures at h
    cases hp : pics with
    | error e2 =>
      rw [hp] at h
      left
      simpa using h
    | ok ps =>
      rw [hp] at h
      right
      cases hm : mkdir (filenamify name.data []) with
      | error e2 =>
        rw [hm] at h
        simpa using h
      | ok u =>
        rw [hm] at h
        simp at h
  · intro ps hp hm
    subst hp
    unfold download_pictures
    rw [hm]
  · unfold download_pictures
    cases pics with
    | error e => rfl
    | ok ps =>
      cases mkdir (filenamify name.data []) with
      | error e => rfl
      | ok u => rfl

/-- Claim C7, witness: a two-unit batch in which the first unit fails still
returns a successful batch result listing the failing unit and the completed
second unit. -/
theorem spec_c7_witness :
    download_pictures "a" (Except.ok ["u1", "u2"]) (fun _ => Except.ok ())
        (fun u => if u = "u1" then Except.error "boom" else Except.ok ()) =
      Except.ok [("u1", Except.error "boom"), ("u2", Except.ok ())] := by
  have h := (spec_c7_batch_error_isolation "a" (Except.ok ["u1", "u2"])
      (fun _ => Except.ok ())
      (fun u => if u = "u1" then Except.error "boom" else Except.ok ())
      (fun _ => Except.ok ())).2.1 ["u1", "u2"] rfl rfl
  rw [h]
  decide

/-- Claim C10: the sub-page base URL of SFTKParser::get_all_pictures is
derived by slicing the last 5 bytes off the album URL with no length or
boundary check.  For every URL of at least 5 bytes whose length-minus-5
position is a character boundary the slice is total and the operation
proceeds; for every other URL the operation panics (rather than returning an
error) as soon as the album page was fetched; and the panic is reachable from
the public web handler get_album_by_url with a caller-supplied URL and parser
code sftk. -/
theorem spec_c10_sftk_url_slice (url : List Nat)
    (fetch : List Nat → Except String (List Nat))
    (pagct : List Nat → Nat)
    (pagePics : List Nat → Except String (List (List Nat))) :
    (5 ≤ url.length → isUtf8CharBoundary url (url.length - 5) = true →
      sftkBaseUrl url = some (url.take (url.length - 5)) ∧
      SFTKParser.get_all_pictures fetch pagct pagePics url ≠ none) ∧
    (¬(5 ≤ url.length ∧ isUtf8CharBoundary url (url.length - 5) = true) →
      ∀ html, fetch url = Except.ok html →
        SFTKParser.get_all_pictures fetch pagct pagePics url = none) ∧
    (¬(5 ≤ url.length ∧ isUtf8CharBoundary url (url.length - 5) = true) →
      ∀ (diliPics : List Nat → Except String (List (List Nat))) html,
        fetch url = Except.ok html →
        get_album_by_url fetch pagct pagePics diliPics "sftk".data url = none) := by
  have hbase_none : ¬(5 ≤ url.length ∧ isUtf8CharBoundary url (url.length - 5) = true) →
      sftkBaseUrl url = none := by
    intro h
    unfold sftkBaseUrl
    by_cases h5 : 5 ≤ url.length
    · have hb : ¬ isUtf8CharBoundary url (url.length - 5) = true := fun hb => h ⟨h5, hb⟩
      rw [if_pos h5, if_neg hb]
    · rw [if_neg h5]
  refine ⟨?_, ?_, ?_⟩
  · intro h5 hb
    have hs : sftkBaseUrl url = some (url.take (url.length - 5)) := by
      unfold sftkBaseUrl
      rw [if_pos h5, if_pos hb]
    refine ⟨hs, ?_⟩
    simp only [SFTKParser.get_all_pictures]
    cases hf : fetch url with
    | error e => simp
    | ok html => simp [hs]
  · intro h html hf
    simp only [SFTKParser.get_all_pictures, hf, hbase_none h]
  · intro h diliPics html hf
    unfold get_album_by_url
    rw [if_pos (by decide : toUpperAscii "sftk".data = "SFTK".data)]
    have hnone : SFTKParser.get_all_pictures fetch pagct pagePics url = none := by
      simp only [SFTKParser.get_all_pictures, hf, hbase_none h]
    rw [hnone]

/-- Claim C10, witness: the URL "ab.html" (7 bytes) slices to "ab" and the
operation proceeds; the 2-byte URL "ab" panics inside get_all_pictures and
the panic escapes the web handler; the 6-byte URL consisting of two CJK
characters panics because byte position 1 is inside a character. -/
theorem spec_c10_witness :
    (sftkBaseUrl (strBytes "ab.html") = some (strBytes "ab") ∧
      SFTKParser.get_all_pictures fetchOk pagctZero pagePicsOk (strBytes "ab.html") ≠ none) ∧
    SFTKParser.get_all_pictures fetchOk pagctZero pagePicsOk (strBytes "ab") = none ∧
    get_album_by_url fetchOk pagctZero pagePicsOk pagePicsOk "sftk".data (strBytes "ab") =
      none ∧
    SFTKParser.get_all_pictures fetchOk pagctZero pagePicsOk
      [230, 151, 165, 230, 151, 165] = none := by
  refine ⟨?_, ?_, ?_, ?_⟩
  · exact (spec_c10_sftk_url_slice (strBytes "ab.html") fetchOk pagctZero pagePicsOk).1
      (by decide) (by decide)
  · exact (spec_c10_sftk_url_slice (strBytes "ab") fetchOk pagctZero pagePicsOk).2.1
      (by decide) [] rfl
  · exact (spec_c10_sftk_url_slice (strBytes "ab") fetchOk pagctZero pagePicsOk).2.2
      (by decide) pagePicsOk [] rfl
  · exact (spec_c10_sftk_url_slice [230, 151, 165, 230, 151, 165]
      fetchOk pagctZero pagePicsOk).2.1 (by decide) [] rfl
